import Mathlib

/-!
Verification of the agentmesh directory-and-relay core.

The development embeds the data model and operations of the repository:
the message canonicalizer (packages/core `canonicalize`), the SQLite-backed
directory store (`store.ts`: `putAgent`, `getAgent`, `searchAgents`,
`storeMessage`, `ackMessage`, ...), the in-memory `AgentStore`, and the HTTP
route handlers of the two directory servers (registration, update, delete,
relay submit / poll / acknowledge).

Modelling conventions, used throughout:
* JavaScript objects are association lists `List (String × Json)`; a
  well-formed object has no duplicate keys (`WfKeys`).
* Timestamps are naturals (milliseconds since epoch); the TS code converts
  them to ISO strings with `toISOString`, an injective encoding, so the
  numeric value is the faithful content.  30 days = 2592000000 ms.
* `sha256` hex digests and base64 cursor encoding are kept abstract: route
  functions take the hash function (`hashToken`) and the cursor
  encoder/decoder (`enc`, `dec`) as explicit arguments; the source versions
  are concrete injective functions with `dec (enc s) = s`.
* The bearer-token header parse (`authHeader?.startsWith("Bearer ")`,
  `slice(7)`) is summarised as an `Option String` argument: `none` is a
  missing/malformed Authorization header, `some tok` the extracted token.
-/

namespace AgentMesh

/-- JSON-like structured value: scalars, ordered sequences and objects,
the generic tagged-value tree over which the canonicalizer operates.
Object fields are kept in insertion order, as JavaScript does. -/
inductive Json where
  | str (s : String)
  | num (n : Int)
  | boolean (b : Bool)
  | null
  | arr (elems : List Json)
  | obj (fields : List (String × Json))

/-- Lexicographic (code-point) order on character lists, the order
`Object.keys(value).sort()` uses on the underlying strings.  Written as an
executable comparator because core `String` order does not reduce in the
kernel. -/
def charListLE : List Char → List Char → Bool
  | [], _ => true
  | _ :: _, [] => false
  | a :: as, b :: bs => if a = b then charListLE as bs else decide (a < b)

/-- Lexicographic order on strings (by their character data). -/
def strLE (s t : String) : Bool := charListLE s.data t.data

/-- Order on object fields: compare the keys lexicographically. -/
def keyLE (p q : String × Json) : Prop := strLE p.1 q.1 = true

instance : DecidableRel keyLE := fun p q => inferInstanceAs (Decidable (strLE p.1 q.1 = true))

/-- Sort an object's fields by key (the `Object.keys(value).sort()` step of
the canonicalizer). -/
def sortPairs (kvs : List (String × Json)) : List (String × Json) :=
  kvs.insertionSort keyLE

/-- Modelled from the spec: the recursive key-sorting pass of `canonicalize`
in `packages/core/src/crypto.ts`, a file that is not under `src/` (only its
tests in `packages/core/src/schema.test.ts` are).  Spec rule (2): object
keys are sorted lexicographically at every nesting level, recursively;
rule (3): sequence element order is preserved verbatim. -/
def sortJson : Json → Json
  | .str s => .str s
  | .num n => .num n
  | .boolean b => .boolean b
  | .null => .null
  | .arr xs => .arr (xs.attach.map fun x => sortJson x.1)
  | .obj kvs => .obj (sortPairs (kvs.attach.map fun p => (p.1.1, sortJson p.1.2)))
decreasing_by
  · have := List.sizeOf_lt_of_mem x.2
    simp only [Json.arr.sizeOf_spec]
    omega
  · have h1 := List.sizeOf_lt_of_mem p.2
    have h2 : sizeOf p.1.2 < sizeOf p.1 := by
      obtain ⟨a, b⟩ := p.1
      simp only [Prod.mk.sizeOf_spec]
      omega
    simp only [Json.obj.sizeOf_spec]
    omega

theorem sortJson_str (s : String) : sortJson (.str s) = .str s := by rw [sortJson]

theorem sortJson_num (n : Int) : sortJson (.num n) = .num n := by rw [sortJson]

theorem sortJson_boolean (b : Bool) : sortJson (.boolean b) = .boolean b := by rw [sortJson]

theorem sortJson_null : sortJson .null = .null := by rw [sortJson]

theorem sortJson_arr (xs : List Json) : sortJson (.arr xs) = .arr (xs.map sortJson) := by
  have h := List.attach_map_coe xs sortJson
  rw [sortJson, h]

theorem sortJson_obj (kvs : List (String × Json)) :
    sortJson (.obj kvs) = .obj (sortPairs (kvs.map fun p => (p.1, sortJson p.2))) := by
  have h := List.attach_map_coe kvs (fun q => (q.1, sortJson q.2))
  rw [sortJson, h]

/-- Modelled from the spec: the compact serialization step of `canonicalize`
(rule (4): no insignificant whitespace; rule (5): UTF-8 strings, written
here as plain quoted strings).  Fields of an object are emitted in list
order; `canonicalize` sorts them first with `sortJson`. -/
def render : Json → String
  | .str s => "\"" ++ s ++ "\""
  | .num n => toString n
  | .boolean b => cond b "true" "false"
  | .null => "null"
  | .arr xs => "[" ++ String.intercalate "," (xs.attach.map fun x => render x.1) ++ "]"
  | .obj kvs =>
      "\x7b" ++ String.intercalate ","
        (kvs.attach.map fun p => "\"" ++ p.1.1 ++ "\":" ++ render p.1.2) ++ "\x7d"
decreasing_by
  · have := List.sizeOf_lt_of_mem x.2
    simp only [Json.arr.sizeOf_spec]
    omega
  · have h1 := List.sizeOf_lt_of_mem p.2
    have h2 : sizeOf p.1.2 < sizeOf p.1 := by
      obtain ⟨a, b⟩ := p.1
      simp only [Prod.mk.sizeOf_spec]
      omega
    simp only [Json.obj.sizeOf_spec]
    omega

theorem render_str (s : String) : render (.str s) = "\"" ++ s ++ "\"" := by rw [render]

theorem render_num (n : Int) : render (.num n) = toString n := by rw [render]

theorem render_boolean (b : Bool) : render (.boolean b) = cond b "true" "false" := by rw [render]

theorem render_null : render .null = "null" := by rw [render]

theorem render_arr (xs : List Json) :
    render (.arr xs) = "[" ++ String.intercalate "," (xs.map render) ++ "]" := by
  have h := List.attach_map_coe xs render
  rw [render, h]

theorem render_obj (kvs : List (String × Json)) :
    render (.obj kvs) =
      "\x7b" ++ String.intercalate "," (kvs.map fun p => "\"" ++ p.1 ++ "\":" ++ render p.2) ++
        "\x7d" := by
  have h := List.attach_map_coe kvs (fun q => "\"" ++ q.1 ++ "\":" ++ render q.2)
  rw [render, h]

/-- Spec rule (1): remove any field named `signature` at the top level
before serializing (the `delete copy.signature` step). -/
def stripSignatureTop : Json → Json
  | .obj kvs => .obj (kvs.filter fun p => p.1 != "signature")
  | j => j

/-- Modelled from the spec: `canonicalize` of `packages/core/src/crypto.ts`
(absent from `src/`; behaviour fixed by §4.1 of the spec and by the unit
tests in `packages/core/src/schema.test.ts` lines 168–188): strip the
top-level `signature` field, sort object keys recursively, serialize
compactly. -/
def canonicalize (j : Json) : String := render (sortJson (stripSignatureTop j))

/-! ### Order theory for the key comparator -/

theorem charListLE_total : ∀ a b, charListLE a b = true ∨ charListLE b a = true := by
  intro a
  induction a with
  | nil => intro b; left; rfl
  | cons x xs ih =>
    intro b
    cases b with
    | nil => right; rfl
    | cons y ys =>
      by_cases hxy : x = y
      · subst hxy
        simp only [charListLE, if_pos rfl]
        exact ih ys
      · rcases lt_trichotomy x y with h | h | h
        · left
          simp only [charListLE, if_neg hxy]
          exact decide_eq_true h
        · exact absurd h hxy
        · right
          simp only [charListLE, if_neg (Ne.symm hxy)]
          exact decide_eq_true h

theorem charListLE_trans : ∀ a b c, charListLE a b = true → charListLE b c = true →
    charListLE a c = true := by
  intro a
  induction a with
  | nil => intro b c _ _; rfl
  | cons x xs ih =>
    intro b c hab hbc
    cases b with
    | nil => simp [charListLE] at hab
    | cons y ys =>
      cases c with
      | nil => simp [charListLE] at hbc
      | cons z zs =>
        simp only [charListLE] at hab hbc ⊢
        by_cases hxy : x = y <;> by_cases hyz : y = z
        · subst hxy; subst hyz
          rw [if_pos rfl] at hab hbc ⊢
          exact ih _ _ hab hbc
        · subst hxy
          rw [if_pos rfl] at hab
          rw [if_neg hyz] at hbc ⊢
          exact hbc
        · subst hyz
          rw [if_pos rfl] at hbc
          rw [if_neg hxy] at hab ⊢
          exact hab
        · rw [if_neg hxy] at hab
          rw [if_neg hyz] at hbc
          have h1 : x < y := of_decide_eq_true hab
          have h2 : y < z := of_decide_eq_true hbc
          have hxz : x < z := lt_trans h1 h2
          rw [if_neg (ne_of_lt hxz)]
          exact decide_eq_true hxz

theorem charListLE_antisymm : ∀ a b, charListLE a b = true → charListLE b a = true → a = b := by
  intro a
  induction a with
  | nil =>
    intro b _ hba
    cases b with
    | nil => rfl
    | cons y ys => simp [charListLE] at hba
  | cons x xs ih =>
    intro b hab hba
    cases b with
    | nil => simp [charListLE] at hab
    | cons y ys =>
      simp only [charListLE] at hab hba
      by_cases hxy : x = y
      · subst hxy
        rw [if_pos rfl] at hab hba
        rw [ih ys hab hba]
      · rw [if_neg hxy] at hab
        rw [if_neg (Ne.symm hxy)] at hba
        have h1 : x < y := of_decide_eq_true hab
        have h2 : y < x := of_decide_eq_true hba
        exact absurd h2 (not_lt_of_gt h1)

theorem strLE_antisymm (s t : String) (h1 : strLE s t = true) (h2 : strLE t s = true) : s = t := by
  cases s with
  | mk ds =>
    cases t with
    | mk dt =>
      have := charListLE_antisymm ds dt h1 h2
      rw [this]

instance : IsTotal (String × Json) keyLE :=
  ⟨fun a b => charListLE_total a.1.data b.1.data⟩

instance : IsTrans (String × Json) keyLE :=
  ⟨fun _ _ _ h h' => charListLE_trans _ _ _ h h'⟩

/-- Strict version of `keyLE` used to identify permuted sorted lists:
keys weakly ordered and distinct. -/
def keyStrict (p q : String × Json) : Prop := keyLE p q ∧ p.1 ≠ q.1

instance : IsAntisymm (String × Json) keyStrict :=
  ⟨fun _ _ h1 h2 => absurd (strLE_antisymm _ _ h1.1 h2.1) h1.2⟩

theorem sortPairs_perm (kvs : List (String × Json)) : List.Perm (sortPairs kvs) kvs :=
  List.perm_insertionSort keyLE kvs

theorem sortPairs_sorted (kvs : List (String × Json)) : (sortPairs kvs).Pairwise keyLE :=
  List.sorted_insertionSort keyLE kvs

theorem sortPairs_sorted_strict (kvs : List (String × Json))
    (hnd : (kvs.map Prod.fst).Nodup) : (sortPairs kvs).Pairwise keyStrict := by
  have hperm : List.Perm ((sortPairs kvs).map Prod.fst) (kvs.map Prod.fst) :=
    (sortPairs_perm kvs).map Prod.fst
  have hnd2 : ((sortPairs kvs).map Prod.fst).Nodup := hperm.nodup_iff.mpr hnd
  have hne : (sortPairs kvs).Pairwise (fun p q => p.1 ≠ q.1) := List.pairwise_map.mp hnd2
  exact ((sortPairs_sorted kvs).and hne).imp fun h => ⟨h.1, h.2⟩

/-- Two permuted field lists with the same (duplicate-free) key set sort to
the same list: key sorting erases insertion order. -/
theorem sortPairs_eq_of_perm {A B : List (String × Json)} (h : List.Perm A B)
    (hnd : (A.map Prod.fst).Nodup) : sortPairs A = sortPairs B := by
  have hndB : (B.map Prod.fst).Nodup := (h.map Prod.fst).nodup_iff.mp hnd
  have hp : List.Perm (sortPairs A) (sortPairs B) :=
    (sortPairs_perm A).trans (h.trans (sortPairs_perm B).symm)
  exact List.eq_of_perm_of_sorted hp (sortPairs_sorted_strict A hnd)
    (sortPairs_sorted_strict B hndB)

/-! ### Field-order equivalence of JSON values -/

/-- Relation `SameFields a b`: `a` and `b` carry the same key/value pairs, ignoring
object-key insertion order at every nesting level; sequence order is
significant.  This is the spec's "objects with the same key/value pairs
regardless of key order". -/
inductive SameFields : Json → Json → Prop where
  | str (s : String) : SameFields (.str s) (.str s)
  | num (n : Int) : SameFields (.num n) (.num n)
  | boolean (b : Bool) : SameFields (.boolean b) (.boolean b)
  | null : SameFields .null .null
  | arr {xs ys : List Json} : List.Forall₂ SameFields xs ys → SameFields (.arr xs) (.arr ys)
  | obj {kvs l kvs₂ : List (String × Json)} :
      List.Perm kvs l →
      l.map Prod.fst = kvs₂.map Prod.fst →
      List.Forall₂ SameFields (l.map Prod.snd) (kvs₂.map Prod.snd) →
      SameFields (.obj kvs) (.obj kvs₂)

/-- Well-formed JSON value: every object has duplicate-free keys, as
JavaScript objects do. -/
inductive WfKeys : Json → Prop where
  | str (s : String) : WfKeys (.str s)
  | num (n : Int) : WfKeys (.num n)
  | boolean (b : Bool) : WfKeys (.boolean b)
  | null : WfKeys .null
  | arr {xs : List Json} : (∀ x ∈ xs, WfKeys x) → WfKeys (.arr xs)
  | obj {kvs : List (String × Json)} : (kvs.map Prod.fst).Nodup →
      (∀ p ∈ kvs, WfKeys p.2) → WfKeys (.obj kvs)

theorem stripSignatureTop_wfKeys {a : Json} (h : WfKeys a) :
    WfKeys (stripSignatureTop a) := by
  cases h with
  | str s => exact WfKeys.str s
  | num n => exact WfKeys.num n
  | boolean b => exact WfKeys.boolean b
  | null => exact WfKeys.null
  | arr hx => exact WfKeys.arr hx
  | obj hnd hvals =>
      simp only [stripSignatureTop]
      refine WfKeys.obj ?_ ?_
      · exact hnd.sublist ((List.filter_sublist _).map Prod.fst)
      · intro p hp
        exact hvals p ((List.filter_sublist _).subset hp)

theorem filter_aligned :
    ∀ {A B : List (String × Json)}, A.map Prod.fst = B.map Prod.fst →
      List.Forall₂ SameFields (A.map Prod.snd) (B.map Prod.snd) →
      ((A.filter fun p => p.1 != "signature").map Prod.fst =
          (B.filter fun p => p.1 != "signature").map Prod.fst) ∧
        List.Forall₂ SameFields ((A.filter fun p => p.1 != "signature").map Prod.snd)
          ((B.filter fun p => p.1 != "signature").map Prod.snd) := by
  intro A
  induction A with
  | nil =>
    intro B hk _
    cases B with
    | nil => exact ⟨rfl, List.Forall₂.nil⟩
    | cons b bs => simp at hk
  | cons a as ih =>
    intro B hk hv
    cases B with
    | nil => simp at hk
    | cons b bs =>
      simp only [List.map_cons, List.cons.injEq] at hk
      obtain ⟨hk1, hk2⟩ := hk
      simp only [List.map_cons] at hv
      cases hv with
      | cons hab htail =>
        have ihr := ih hk2 htail
        by_cases hsig : (a.1 != "signature") = true
        · have hsig2 : (b.1 != "signature") = true := by rw [← hk1]; exact hsig
          simp only [List.filter_cons, hsig, hsig2, if_pos, List.map_cons]
          exact ⟨by rw [hk1, ihr.1], List.Forall₂.cons hab ihr.2⟩
        · have hsig2 : ¬ (b.1 != "signature") = true := by rw [← hk1]; exact hsig
          simp only [List.filter_cons, if_neg hsig, if_neg hsig2]
          exact ihr

theorem stripSignatureTop_sameFields {a b : Json} (h : SameFields a b) :
    SameFields (stripSignatureTop a) (stripSignatureTop b) := by
  cases h with
  | str s => exact SameFields.str s
  | num n => exact SameFields.num n
  | boolean b => exact SameFields.boolean b
  | null => exact SameFields.null
  | arr hf => exact SameFields.arr hf
  | obj hperm hk hv =>
      simp only [stripSignatureTop]
      exact SameFields.obj (hperm.filter _) (filter_aligned hk hv).1 (filter_aligned hk hv).2

theorem map_sortJson_forall₂ :
    ∀ {xs ys : List Json}, List.Forall₂ SameFields xs ys →
      (∀ x ∈ xs, WfKeys x) →
      (∀ x ∈ xs, ∀ y, WfKeys x → SameFields x y → sortJson x = sortJson y) →
      xs.map sortJson = ys.map sortJson := by
  intro xs
  induction xs with
  | nil => intro ys hf _ _; cases hf; rfl
  | cons x xs ih =>
    intro ys hf hw hih
    cases hf with
    | cons hxy htail =>
      simp only [List.map_cons, List.cons.injEq]
      refine ⟨hih x (by simp) _ (hw x (by simp)) hxy, ?_⟩
      exact ih htail (fun z hz => hw z (by simp [hz])) (fun z hz => hih z (by simp [hz]))

theorem map_sortPair_aligned :
    ∀ {A B : List (String × Json)}, A.map Prod.fst = B.map Prod.fst →
      List.Forall₂ SameFields (A.map Prod.snd) (B.map Prod.snd) →
      (∀ p ∈ A, WfKeys p.2) →
      (∀ p ∈ A, ∀ y, WfKeys p.2 → SameFields p.2 y → sortJson p.2 = sortJson y) →
      A.map (fun p => (p.1, sortJson p.2)) = B.map (fun p => (p.1, sortJson p.2)) := by
  intro A
  induction A with
  | nil =>
    intro B hk _ _ _
    cases B with
    | nil => rfl
    | cons b bs => simp at hk
  | cons a as ih =>
    intro B hk hv hw hih
    cases B with
    | nil => simp at hk
    | cons b bs =>
      simp only [List.map_cons, List.cons.injEq] at hk
      obtain ⟨hk1, hk2⟩ := hk
      simp only [List.map_cons] at hv
      cases hv with
      | cons hab htail =>
        simp only [List.map_cons, List.cons.injEq]
        constructor
        · exact Prod.ext hk1 (hih a (by simp) _ (hw a (by simp)) hab)
        · exact ih hk2 htail (fun p hp => hw p (by simp [hp])) (fun p hp => hih p (by simp [hp]))

theorem map_fst_sortPair (kvs : List (String × Json)) :
    (kvs.map fun p => (p.1, sortJson p.2)).map Prod.fst = kvs.map Prod.fst := by
  rw [List.map_map]
  rfl

/-- Core invariance: on well-formed values, the recursive key-sorting pass
identifies any two values with the same fields. -/
theorem sortJson_eq_of_sameFields :
    ∀ (n : Nat) (a b : Json), sizeOf a < n → WfKeys a → SameFields a b →
      sortJson a = sortJson b := by
  intro n
  induction n with
  | zero => intro a b hsz _ _; exact absurd hsz (Nat.not_lt_zero _)
  | succ n ih =>
    intro a b hsz hw h
    cases h with
    | str s => rfl
    | num m => rfl
    | boolean b => rfl
    | null => rfl
    | arr hf =>
      rename_i xs ys
      rw [sortJson_arr, sortJson_arr]
      have hwx : ∀ x ∈ xs, WfKeys x := by cases hw with | arr hx => exact hx
      have hsx : ∀ x ∈ xs, sizeOf x < n := by
        intro x hx
        have h1 := List.sizeOf_lt_of_mem hx
        simp only [Json.arr.sizeOf_spec] at hsz
        omega
      congr 1
      exact map_sortJson_forall₂ hf hwx (fun x hx y hwy hxy => ih x y (hsx x hx) hwy hxy)
    | obj hperm hk hv =>
      rename_i kvs l kvs₂
      rw [sortJson_obj, sortJson_obj]
      have hnd : (kvs.map Prod.fst).Nodup := by cases hw with | obj hnd _ => exact hnd
      have hwv : ∀ p ∈ kvs, WfKeys p.2 := by cases hw with | obj _ hw2 => exact hw2
      have hmem : ∀ p ∈ l, p ∈ kvs := fun p hp => (hperm.mem_iff).mpr hp
      have hszv : ∀ p ∈ l, sizeOf p.2 < n := by
        intro p hp
        have h1 := List.sizeOf_lt_of_mem (hmem p hp)
        have h2 : sizeOf p.2 < sizeOf p := by
          obtain ⟨k, v⟩ := p
          simp only [Prod.mk.sizeOf_spec]
          omega
        simp only [Json.obj.sizeOf_spec] at hsz
        omega
      have step2 : l.map (fun p => (p.1, sortJson p.2)) =
          kvs₂.map (fun p => (p.1, sortJson p.2)) :=
        map_sortPair_aligned hk hv (fun p hp => hwv p (hmem p hp))
          (fun p hp y hwy hxy => ih p.2 y (hszv p hp) hwy hxy)
      have step1 : List.Perm (kvs.map fun p => (p.1, sortJson p.2))
          (l.map fun p => (p.1, sortJson p.2)) := hperm.map _
      have hndf : ((kvs.map fun p => (p.1, sortJson p.2)).map Prod.fst).Nodup := by
        rw [map_fst_sortPair]; exact hnd
      congr 1
      rw [sortPairs_eq_of_perm step1 hndf, step2]

/-- Canonicalization is invariant under object-key insertion order, at every
nesting level, on well-formed (duplicate-key-free) values. -/
theorem canonicalize_eq_of_sameFields {a b : Json} (hw : WfKeys a) (h : SameFields a b) :
    canonicalize a = canonicalize b := by
  unfold canonicalize
  rw [sortJson_eq_of_sameFields (sizeOf (stripSignatureTop a) + 1) _ _ (by omega)
    (stripSignatureTop_wfKeys hw) (stripSignatureTop_sameFields h)]

/-! ### Directory data model (packages/core `types.ts`) -/

/-- Owner info on an agent card. -/
structure Owner where
  name : String
  contact : Option String
deriving DecidableEq

/-- Availability block on an agent card. -/
structure Availability where
  timezone : Option String
  hours : Option String
  response_sla : Option String
deriving DecidableEq

/-- Access-control block; `mode` is one of `open`/`allowlist`/`approval`
(kept as a string because `open` is reserved in Lean). -/
structure AccessControl where
  mode : String
  allowlist : Option (List String)
  block : Option (List String)
deriving DecidableEq

/-- Agent identity document (`AgentCard` in `types.ts`).  `metadata` is the
string-to-string record as an association list. -/
structure AgentCard where
  squadklaw : String
  agent_id : String
  name : String
  description : Option String
  owner : Option Owner
  endpoint : String
  public_key : String
  capabilities : List String
  intents : List String
  availability : Option Availability
  access_control : Option AccessControl
  metadata : Option (List (String × String))
deriving DecidableEq

/-- Signed message envelope (`Message` in `types.ts`).  The TS fields
`from`/`to` are `from_agent`/`to_agent` here because `from` is reserved in
Lean.  `timestamp` stays a string (ISO-8601, never interpreted). -/
structure Message where
  squadklaw : String
  message_id : String
  conversation_id : String
  from_agent : String
  to_agent : String
  timestamp : String
  intent : String
  payload : Json
  signature : String

/-- Persisted agent record (`StoredAgent`): card plus registration
metadata.  Timestamps in ms since epoch (the TS code stores their
`toISOString` rendering, an injective encoding). -/
structure StoredAgent where
  card : AgentCard
  registered_at : Nat
  expires_at : Nat
  token_hash : String
deriving DecidableEq

/-- Row of the `messages` relay table (`StoredMessage` in `store.ts`):
`delivered` is the SQLite INTEGER flag (0/1, default 0). -/
structure StoredMessage where
  id : String
  conversation_id : String
  from_agent : String
  to_agent : String
  intent : String
  message_json : String
  created_at : Nat
  delivered : Nat
deriving DecidableEq

/-! ### Store operations

The `agents` table (primary key `agent_id`) and the in-memory
`Map<string, StoredAgent>` are both modelled as a `List StoredAgent` in
insertion order; `putAgent` is `INSERT OR REPLACE` / `Map.set` (replace in
place when the key exists, append otherwise). -/

def putAgent (s : List StoredAgent) (a : StoredAgent) : List StoredAgent :=
  if s.any (fun x => x.card.agent_id == a.card.agent_id) then
    s.map (fun x => if x.card.agent_id == a.card.agent_id then a else x)
  else s ++ [a]

/-- Lookup `SELECT * FROM agents WHERE agent_id = ?` / `Map.get`. -/
def getAgent (s : List StoredAgent) (agentId : String) : Option StoredAgent :=
  s.find? (fun x => x.card.agent_id == agentId)

/-- Removal `DELETE FROM agents WHERE agent_id = ?`; returns whether a row was
removed, and the new table. -/
def deleteAgent (s : List StoredAgent) (agentId : String) : Bool × List StoredAgent :=
  (s.any (fun x => x.card.agent_id == agentId),
    s.filter (fun x => x.card.agent_id != agentId))

/-- Reverse lookup `SELECT * FROM agents WHERE token_hash = ?` (first matching row). -/
def getAgentByTokenHash (s : List StoredAgent) (tokenHash : String) : Option StoredAgent :=
  s.find? (fun x => x.token_hash == tokenHash)

/-- JavaScript `String.prototype.includes` on character lists. -/
def containsSub : List Char → List Char → Bool
  | [], need => need.isEmpty
  | c :: t, need => need.isPrefixOf (c :: t) || containsSub t need

/-- JavaScript `toLowerCase` (code-point lowercasing of the character data). -/
def lowerStr (s : String) : String := ⟨s.data.map Char.toLower⟩

/-- JavaScript `hay.includes(need)`. -/
def strIncludes (hay need : String) : Bool := containsSub hay.data need.data

/-- Validated query parameters (`DirectoryQuerySchema` output): optional
filters plus `limit` (schema default 20, bounds 1..100) and cursor. -/
structure DirectoryQuery where
  capability : Option String
  intent : Option String
  q : Option String
  limit : Nat
  cursor : Option String

/-- The three filter steps shared verbatim by `searchAgents` (store.ts) and
`AgentStore.search`: capability membership, intent membership,
case-insensitive substring on name/description; AND across supplied
filters. -/
def applyFilters (cards : List AgentCard) (capability intent q : Option String) :
    List AgentCard :=
  let r1 := match capability with
    | some c => cards.filter (fun a => a.capabilities.contains c)
    | none => cards
  let r2 := match intent with
    | some i => r1.filter (fun a => a.intents.contains i)
    | none => r1
  match q with
  | some qs =>
      let ql := lowerStr qs
      r2.filter (fun a => strIncludes (lowerStr a.name) ql ||
        (match a.description with
          | some d => strIncludes (lowerStr d) ql
          | none => false))
  | none => r2

/-- First index satisfying a predicate (JS `findIndex`, with `none` for
`-1`). -/
def findIdxOpt {α : Type} (p : α → Bool) : List α → Option Nat
  | [] => none
  | a :: l => if p a then some 0 else (findIdxOpt p l).map (· + 1)

/-- The cursor step: if a cursor is supplied, decode it, find the matching
card (JS `findIndex`) and resume after it; when the decoded id is not found
(`findIndex === -1`), the list is left whole. -/
def cursorSlice (results : List AgentCard) (dec : String → String) :
    Option String → List AgentCard
  | none => results
  | some cur =>
      match findIdxOpt (fun a : AgentCard => a.agent_id == dec cur) results with
      | some idx => results.drop (idx + 1)
      | none => results

/-- The slice/page tail shared verbatim by both search implementations:
apply the cursor, take `limit`, and hand out a next cursor (the encoded
last `agent_id`) exactly when the page is full.  `enc`/`dec` stand for the
base64 encode/decode pair of the source. -/
def paginate (results : List AgentCard) (limit : Nat) (cursor : Option String)
    (enc dec : String → String) : List AgentCard × Option String :=
  let page := (cursorSlice results dec cursor).take limit
  (page, if page.length == limit then page.getLast?.map (fun a => enc a.agent_id) else none)

/-- Order on cards used by `ORDER BY agent_id`. -/
def cardLE (a b : AgentCard) : Prop := strLE a.agent_id b.agent_id = true

instance : DecidableRel cardLE := fun a b => inferInstanceAs (Decidable (strLE a.agent_id b.agent_id = true))

instance : IsTotal AgentCard cardLE := ⟨fun a b => charListLE_total a.agent_id.data b.agent_id.data⟩

instance : IsTrans AgentCard cardLE := ⟨fun _ _ _ h h' => charListLE_trans _ _ _ h h'⟩

/-- Search `searchAgents` of the SQLite-backed store (`store.ts`):
`SELECT card_json FROM agents ORDER BY agent_id`, then filters, cursor,
page. -/
def searchAgents (s : List StoredAgent) (query : DirectoryQuery) (enc dec : String → String) :
    List AgentCard × Option String :=
  let results := (s.map (·.card)).insertionSort cardLE
  paginate (applyFilters results query.capability query.intent query.q)
    query.limit query.cursor enc dec

/-- Search `AgentStore.search` of the in-memory store (`packages/directory`):
`Array.from(this.agents.values())` — cards in Map insertion order, no
sorting — then the same filters, cursor, page. -/
def agentStoreSearch (s : List StoredAgent) (query : DirectoryQuery)
    (enc dec : String → String) : List AgentCard × Option String :=
  paginate (applyFilters (s.map (·.card)) query.capability query.intent query.q)
    query.limit query.cursor enc dec

/-! ### Relay store operations (`store.ts`) -/

/-- Insertion `INSERT INTO messages ...`: `created_at` defaults to now, `delivered`
to 0 (schema in `db.ts`). -/
def storeMessage (msgs : List StoredMessage)
    (id conversationId fromAgent toAgent intent messageJson : String) (now : Nat) :
    List StoredMessage :=
  msgs ++ [⟨id, conversationId, fromAgent, toAgent, intent, messageJson, now, 0⟩]

/-- Order on rows used by `ORDER BY created_at ASC`. -/
def msgLE (m n : StoredMessage) : Prop := m.created_at ≤ n.created_at

instance : DecidableRel msgLE := fun m n => inferInstanceAs (Decidable (m.created_at ≤ n.created_at))

/-- Poll query `SELECT * FROM messages WHERE to_agent = ? AND delivered = 0 ORDER BY
created_at ASC LIMIT ?`. -/
def getMessagesFor (msgs : List StoredMessage) (agentId : String) (limit : Nat) :
    List StoredMessage :=
  (((msgs.filter (fun m => m.to_agent == agentId && m.delivered == 0)).insertionSort msgLE).take
    limit)

/-- Same, additionally filtered to one conversation. -/
def getMessagesInConversation (msgs : List StoredMessage) (conversationId agentId : String)
    (limit : Nat) : List StoredMessage :=
  (((msgs.filter (fun m =>
      m.conversation_id == conversationId && m.to_agent == agentId &&
        m.delivered == 0)).insertionSort msgLE).take limit)

/-- Acknowledgment `UPDATE messages SET delivered = 1 WHERE id = ? AND to_agent = ?`;
`result.changes` counts the rows matched by the WHERE clause (SQLite counts
a row even when `delivered` was already 1 — the clause has no
`delivered = 0` conjunct), and the route reports success iff
`changes > 0`. -/
def ackMessage (msgs : List StoredMessage) (messageId agentId : String) :
    Bool × List StoredMessage :=
  (msgs.any (fun m => m.id == messageId && m.to_agent == agentId),
    msgs.map (fun m =>
      if m.id == messageId && m.to_agent == agentId then { m with delivered := 1 } else m))

/-! ### HTTP route handlers -/

/-- Response of a route: success body with HTTP status, or the error shape
`{error: {code, message, retry}}` with its status. -/
inductive Outcome (α : Type) where
  | ok (status : Nat) (body : α)
  | err (status : Nat) (code : String) (message : String) (retry : Bool)
deriving DecidableEq

/-- 30 days in milliseconds (`30 * 24 * 60 * 60 * 1000`). -/
def thirtyDaysMs : Nat := 30 * 24 * 60 * 60 * 1000

/-- Helper `resolveAgent` (server of `src/unnamed/part_006`): bearer token →
token hash → reverse lookup.  Returns `(agent_id, token_hash)`. -/
def resolveAgent (hashToken : String → String) (agents : List StoredAgent)
    (bearer : Option String) : Option (String × String) :=
  match bearer with
  | none => none
  | some token =>
      let tokenHash := hashToken token
      match getAgentByTokenHash agents tokenHash with
      | none => none
      | some agent => some (agent.card.agent_id, tokenHash)

/-- Body of a successful registration. -/
structure RegisterOk where
  agent_id : String
  registered_at : Nat
  expires_at : Nat
deriving DecidableEq

/-- Body of a successful update. -/
structure UpdateOk where
  agent_id : String
  expires_at : Nat
deriving DecidableEq

/-- Body of a successful relay submission. -/
structure RelayOk where
  relay_id : String
  status : String
deriving DecidableEq

/-- Route `POST /v1/agents` (identical in both servers): bearer required, body
parsed+validated (`none` = JSON or schema failure, both 400
INVALID_MESSAGE), a fresh server-generated id (`freshId`, from `agentId()`)
overwrites whatever the card carried, `expires_at = now + 30 days`,
`token_hash = hash(token)`. -/
def registerRoute (hashToken : String → String) (agents : List StoredAgent)
    (bearer : Option String) (body : Option AgentCard) (freshId : String) (now : Nat) :
    Outcome RegisterOk × List StoredAgent :=
  match bearer with
  | none => (.err 401 "UNAUTHORIZED" "Missing bearer token" false, agents)
  | some token =>
      match body with
      | none => (.err 400 "INVALID_MESSAGE" "Invalid body" false, agents)
      | some card =>
          let stored : StoredAgent :=
            ⟨{ card with agent_id := freshId }, now, now + thirtyDaysMs, hashToken token⟩
          (.ok 201 ⟨freshId, now, now + thirtyDaysMs⟩, putAgent agents stored)

/-- Route `GET /v1/agents/:id` (identical in both servers). -/
def getAgentRoute (agents : List StoredAgent) (id : String) : Outcome AgentCard :=
  match getAgent agents id with
  | none => .err 404 "AGENT_UNAVAILABLE" "Agent not found" false
  | some stored => .ok 200 stored.card

/-- Route `PUT /v1/agents/:id` (identical in both servers): bearer required →
record must exist (404 AGENT_UNAVAILABLE) → presented token's hash must
equal the stored `token_hash` (else 403 UNAUTHORIZED) → body validated →
store card with the original id, original `registered_at`, original
`token_hash`, fresh 30-day `expires_at`. -/
def putAgentRoute (hashToken : String → String) (agents : List StoredAgent) (id : String)
    (bearer : Option String) (body : Option AgentCard) (now : Nat) :
    Outcome UpdateOk × List StoredAgent :=
  match bearer with
  | none => (.err 401 "UNAUTHORIZED" "Missing bearer token" false, agents)
  | some token =>
      match getAgent agents id with
      | none => (.err 404 "AGENT_UNAVAILABLE" "Agent not found" false, agents)
      | some stored =>
          if hashToken token != stored.token_hash then
            (.err 403 "UNAUTHORIZED" "Invalid token" false, agents)
          else match body with
            | none => (.err 400 "INVALID_MESSAGE" "Invalid body" false, agents)
            | some card =>
                let expires := now + thirtyDaysMs
                (.ok 200 ⟨id, expires⟩,
                  putAgent agents
                    ⟨{ card with agent_id := id }, stored.registered_at, expires,
                      stored.token_hash⟩)

/-- Route `DELETE /v1/agents/:id` (identical in both servers): same credential
check as update; 204 on success. -/
def deleteAgentRoute (hashToken : String → String) (agents : List StoredAgent) (id : String)
    (bearer : Option String) : Outcome Unit × List StoredAgent :=
  match bearer with
  | none => (.err 401 "UNAUTHORIZED" "Missing bearer token" false, agents)
  | some token =>
      match getAgent agents id with
      | none => (.err 404 "AGENT_UNAVAILABLE" "Agent not found" false, agents)
      | some stored =>
          if hashToken token != stored.token_hash then
            (.err 403 "UNAUTHORIZED" "Invalid token" false, agents)
          else
            (.ok 204 (), (deleteAgent agents id).2)

/-- Route `POST /v1/relay` (`src/unnamed/part_006` lines 256–320): resolve the
submitter by token (401), parse+validate the message (400), require
`message.from` to equal the token's agent (403 UNAUTHORIZED), require the
recipient to exist in the store (404 AGENT_UNAVAILABLE; `getAgent` reads
no expiry), then persist the raw body under a server-generated relay id
(`generateId("relay_")`), undelivered. -/
def relayPost (hashToken : String → String) (agents : List StoredAgent)
    (msgs : List StoredMessage) (bearer : Option String) (body : Option Message)
    (rawBody relayId : String) (now : Nat) : Outcome RelayOk × List StoredMessage :=
  match resolveAgent hashToken agents bearer with
  | none => (.err 401 "UNAUTHORIZED" "Must be a registered agent to send messages" false, msgs)
  | some auth =>
      match body with
      | none => (.err 400 "INVALID_MESSAGE" "Invalid message" false, msgs)
      | some msg =>
          if msg.from_agent != auth.1 then
            (.err 403 "UNAUTHORIZED" "Token does not match sender" false, msgs)
          else match getAgent agents msg.to_agent with
            | none => (.err 404 "AGENT_UNAVAILABLE" "Recipient agent not found" false, msgs)
            | some _ =>
                (.ok 201 ⟨relayId, "queued"⟩,
                  storeMessage msgs relayId msg.conversation_id msg.from_agent msg.to_agent
                    msg.intent rawBody now)

/-- Route `GET /v1/relay`: poll undelivered messages for the token's agent,
optionally one conversation, `limit` capped at 100 (default 50 applied by
the caller). -/
def relayPollRoute (hashToken : String → String) (agents : List StoredAgent)
    (msgs : List StoredMessage) (bearer : Option String) (conversation : Option String)
    (limit : Nat) : Outcome (List StoredMessage) :=
  match resolveAgent hashToken agents bearer with
  | none => .err 401 "UNAUTHORIZED" "Must be a registered agent to poll messages" false
  | some auth =>
      let lim := min limit 100
      .ok 200 (match conversation with
        | some conv => getMessagesInConversation msgs conv auth.1 lim
        | none => getMessagesFor msgs auth.1 lim)

/-- Route `POST /v1/relay/:id/ack`: resolve the caller, run the conditional
update, 404 when no row matched, else `{status: "acknowledged"}`. -/
def relayAckRoute (hashToken : String → String) (agents : List StoredAgent)
    (msgs : List StoredMessage) (bearer : Option String) (relayId : String) :
    Outcome String × List StoredMessage :=
  match resolveAgent hashToken agents bearer with
  | none => (.err 401 "UNAUTHORIZED" "Unauthorized" false, msgs)
  | some auth =>
      let res := ackMessage msgs relayId auth.1
      if res.1 then (.ok 200 "acknowledged", res.2)
      else (.err 404 "INVALID_MESSAGE" "Message not found or already acknowledged" false, res.2)

/-- Repeatedly request pages, threading the returned cursor, until no
cursor is returned (or fuel runs out); concatenates the pages. -/
def collectPages (results : List AgentCard) (limit : Nat) (enc dec : String → String) :
    Nat → Option String → List AgentCard
  | 0, _ => []
  | fuel + 1, cursor =>
      let r := paginate results limit cursor enc dec
      match r.2 with
      | none => r.1
      | some c => r.1 ++ collectPages results limit enc dec fuel (some c)

/-! ### Store lemmas -/

theorem getAgent_putAgent_self (s : List StoredAgent) (a : StoredAgent) :
    getAgent (putAgent s a) a.card.agent_id = some a := by
  unfold getAgent putAgent
  by_cases h : s.any (fun x => x.card.agent_id == a.card.agent_id) = true
  · rw [if_pos h]
    induction s with
    | nil => simp at h
    | cons x xs ih =>
      simp only [List.map_cons]
      by_cases hx : (x.card.agent_id == a.card.agent_id) = true
      · rw [if_pos hx]
        simp [List.find?]
      · rw [if_neg hx]
        have hx2 : (x.card.agent_id == a.card.agent_id) = false := by
          simpa using hx
        simp only [List.find?, hx2]
        apply ih
        simp only [List.any_cons, hx2, Bool.false_or] at h
        exact h
  · rw [if_neg h]
    induction s with
    | nil => simp [List.find?]
    | cons x xs ih =>
      simp only [List.any_cons, Bool.or_eq_true, not_or] at h
      have hx2 : (x.card.agent_id == a.card.agent_id) = false := by
        simpa using h.1
      simp only [List.cons_append, List.find?, hx2]
      exact ih (by simpa using h.2)

theorem agentIds_putAgent (s : List StoredAgent) (a : StoredAgent)
    (hnd : (s.map (fun x => x.card.agent_id)).Nodup) :
    ((putAgent s a).map (fun x => x.card.agent_id)).Nodup := by
  unfold putAgent
  by_cases h : s.any (fun x => x.card.agent_id == a.card.agent_id) = true
  · rw [if_pos h]
    have heq : ((s.map (fun x => if x.card.agent_id == a.card.agent_id then a else x)).map
        (fun x => x.card.agent_id)) = s.map (fun x => x.card.agent_id) := by
      rw [List.map_map]
      apply List.map_congr_left
      intro x _
      simp only [Function.comp_apply]
      by_cases hx : (x.card.agent_id == a.card.agent_id) = true
      · rw [if_pos hx]
        exact (eq_of_beq hx).symm
      · rw [if_neg hx]
    rw [heq]
    exact hnd
  · rw [if_neg h]
    have hnotin : a.card.agent_id ∉ s.map (fun x => x.card.agent_id) := by
      intro hmem
      apply h
      rw [List.any_eq_true]
      obtain ⟨x, hx, hid⟩ := List.mem_map.mp hmem
      exact ⟨x, hx, by rw [hid]; exact beq_self_eq_true _⟩
    simp only [List.map_append, List.map_cons, List.map_nil]
    rw [List.nodup_append]
    exact ⟨hnd, List.nodup_singleton _, by
      intro y hy
      simp only [List.mem_singleton]
      intro hcontra
      exact hnotin (hcontra ▸ hy)⟩

theorem findIdxOpt_eq_none {α : Type} (p : α → Bool) (l : List α)
    (h : ∀ a ∈ l, p a = false) : findIdxOpt p l = none := by
  induction l with
  | nil => rfl
  | cons a l ih =>
    simp only [findIdxOpt]
    rw [if_neg (by simp [h a (by simp)])]
    rw [ih (fun x hx => h x (by simp [hx]))]
    rfl

theorem cursorSlice_sublist (results : List AgentCard) (dec : String → String)
    (cursor : Option String) : List.Sublist (cursorSlice results dec cursor) results := by
  cases cursor with
  | none => exact List.Sublist.refl _
  | some cur =>
    simp only [cursorSlice]
    cases findIdxOpt (fun a : AgentCard => a.agent_id == dec cur) results with
    | none => exact List.Sublist.refl _
    | some idx => exact List.drop_sublist _ _

theorem paginate_fst_sublist (results : List AgentCard) (limit : Nat) (cursor : Option String)
    (enc dec : String → String) :
    List.Sublist (paginate results limit cursor enc dec).1 results :=
  (List.take_sublist _ _).trans (cursorSlice_sublist results dec cursor)

/-! ### Concrete sample data for witnesses and counterexamples -/

/-- A minimal valid agent card with the given id. -/
def mkCard (id : String) : AgentCard :=
  { squadklaw := "0.1.0", agent_id := id, name := "Test Agent", description := none,
    owner := none, endpoint := "https://example.com/sk", public_key := "pk",
    capabilities := ["scheduling"], intents := ["mesh.schedule"], availability := none,
    access_control := none, metadata := none }

/-- A stored record for `mkCard id` with the given token hash and times. -/
def mkStored (id tokHash : String) (reg exp : Nat) : StoredAgent :=
  ⟨mkCard id, reg, exp, tokHash⟩

/-- A minimal valid message between two agents. -/
def mkMsg (fromId toId : String) : Message :=
  { squadklaw := "0.1.0", message_id := "msg_1", conversation_id := "conv_1",
    from_agent := fromId, to_agent := toId, timestamp := "2026-02-20T10:00:00.000Z",
    intent := "mesh.schedule", payload := Json.null, signature := "sig" }

/-! ### Update/delete authorization (C6) -/

/-- C6: on an existing agent record, a credential whose hash differs from
the stored `token_hash` makes update and delete fail with the
`UNAUTHORIZED` error code and an unchanged store; a missing record fails
with the distinct `AGENT_UNAVAILABLE` code (also store-unchanged); the two
codes differ. -/
theorem c6_credential_mismatch_distinct (hashToken : String → String)
    (agents : List StoredAgent) (id tok : String) (body : Option AgentCard) (now : Nat)
    (st : StoredAgent) (hget : getAgent agents id = some st)
    (hmm : hashToken tok ≠ st.token_hash) :
    putAgentRoute hashToken agents id (some tok) body now =
        (.err 403 "UNAUTHORIZED" "Invalid token" false, agents)
      ∧ deleteAgentRoute hashToken agents id (some tok) =
        (.err 403 "UNAUTHORIZED" "Invalid token" false, agents)
      ∧ (∀ agents₂ : List StoredAgent, getAgent agents₂ id = none →
          putAgentRoute hashToken agents₂ id (some tok) body now =
              (.err 404 "AGENT_UNAVAILABLE" "Agent not found" false, agents₂)
            ∧ deleteAgentRoute hashToken agents₂ id (some tok) =
              (.err 404 "AGENT_UNAVAILABLE" "Agent not found" false, agents₂))
      ∧ ("UNAUTHORIZED" : String) ≠ "AGENT_UNAVAILABLE" := by
  have hb : (hashToken tok != st.token_hash) = true := bne_iff_ne.mpr hmm
  refine ⟨?_, ?_, ?_, by decide⟩
  · simp only [putAgentRoute, hget, hb, if_pos]
  · simp only [deleteAgentRoute, hget, hb, if_pos]
  · intro agents₂ h2
    exact ⟨by simp only [putAgentRoute, h2], by simp only [deleteAgentRoute, h2]⟩

/-- Witness for C6 at a concrete store and mismatched token. -/
theorem c6_credential_mismatch_distinct_witness :
    putAgentRoute (fun s => s) [mkStored "sk_a" "hash-a" 0 100] "sk_a" (some "wrong")
          (some (mkCard "sk_a")) 7 =
        (.err 403 "UNAUTHORIZED" "Invalid token" false, [mkStored "sk_a" "hash-a" 0 100])
      ∧ deleteAgentRoute (fun s => s) [mkStored "sk_a" "hash-a" 0 100] "sk_a" (some "wrong") =
        (.err 403 "UNAUTHORIZED" "Invalid token" false, [mkStored "sk_a" "hash-a" 0 100])
      ∧ (∀ agents₂ : List StoredAgent, getAgent agents₂ "sk_a" = none →
          putAgentRoute (fun s => s) agents₂ "sk_a" (some "wrong") (some (mkCard "sk_a")) 7 =
              (.err 404 "AGENT_UNAVAILABLE" "Agent not found" false, agents₂)
            ∧ deleteAgentRoute (fun s => s) agents₂ "sk_a" (some "wrong") =
              (.err 404 "AGENT_UNAVAILABLE" "Agent not found" false, agents₂))
      ∧ ("UNAUTHORIZED" : String) ≠ "AGENT_UNAVAILABLE" :=
  c6_credential_mismatch_distinct (fun s => s) [mkStored "sk_a" "hash-a" 0 100] "sk_a" "wrong"
    (some (mkCard "sk_a")) 7 (mkStored "sk_a" "hash-a" 0 100) (by decide) (by decide)

/-! ### Update preserves identity and registration (C7) -/

/-- C7: a successful update of an existing agent stores the submitted card
with the original `agent_id` (even when the card carries another id),
keeps `registered_at` and `token_hash` from the previous record, and sets
`expires_at` to `now` + 30 days. -/
theorem c7_update_preserves (hashToken : String → String) (agents : List StoredAgent)
    (id tok : String) (card : AgentCard) (now : Nat) (st : StoredAgent)
    (hget : getAgent agents id = some st) (hhash : hashToken tok = st.token_hash) :
    putAgentRoute hashToken agents id (some tok) (some card) now =
        (.ok 200 ⟨id, now + thirtyDaysMs⟩,
          putAgent agents
            ⟨{ card with agent_id := id }, st.registered_at, now + thirtyDaysMs,
              st.token_hash⟩)
      ∧ getAgent (putAgentRoute hashToken agents id (some tok) (some card) now).2 id =
        some ⟨{ card with agent_id := id }, st.registered_at, now + thirtyDaysMs,
          st.token_hash⟩
      ∧ (∀ other : String,
          putAgentRoute hashToken agents id (some tok)
              (some { card with agent_id := other }) now =
            putAgentRoute hashToken agents id (some tok) (some card) now) := by
  have hb : (hashToken tok != st.token_hash) = false := by
    simp [hhash]
  have hroute : putAgentRoute hashToken agents id (some tok) (some card) now =
      (.ok 200 ⟨id, now + thirtyDaysMs⟩,
        putAgent agents
          ⟨{ card with agent_id := id }, st.registered_at, now + thirtyDaysMs,
            st.token_hash⟩) := by
    simp only [putAgentRoute, hget, hb, Bool.false_eq_true, if_false]
  refine ⟨hroute, ?_, ?_⟩
  · rw [hroute]
    exact getAgent_putAgent_self agents _
  · intro other
    simp only [putAgentRoute, hget, hb, Bool.false_eq_true, if_false]

/-- Witness for C7 at a concrete store and matching token. -/
theorem c7_update_preserves_witness :
    putAgentRoute (fun s => s) [mkStored "sk_a" "tok-a" 5 99] "sk_a" (some "tok-a")
          (some (mkCard "sk_other")) 10 =
        (.ok 200 ⟨"sk_a", 10 + thirtyDaysMs⟩,
          putAgent [mkStored "sk_a" "tok-a" 5 99]
            ⟨{ mkCard "sk_other" with agent_id := "sk_a" }, 5, 10 + thirtyDaysMs, "tok-a"⟩)
      ∧ getAgent
            (putAgentRoute (fun s => s) [mkStored "sk_a" "tok-a" 5 99] "sk_a" (some "tok-a")
                (some (mkCard "sk_other")) 10).2 "sk_a" =
          some ⟨{ mkCard "sk_other" with agent_id := "sk_a" }, 5, 10 + thirtyDaysMs, "tok-a"⟩
      ∧ (∀ other : String,
          putAgentRoute (fun s => s) [mkStored "sk_a" "tok-a" 5 99] "sk_a" (some "tok-a")
              (some { mkCard "sk_other" with agent_id := other }) 10 =
            putAgentRoute (fun s => s) [mkStored "sk_a" "tok-a" 5 99] "sk_a" (some "tok-a")
              (some (mkCard "sk_other")) 10) :=
  c7_update_preserves (fun s => s) [mkStored "sk_a" "tok-a" 5 99] "sk_a" "tok-a"
    (mkCard "sk_other") 10 (mkStored "sk_a" "tok-a" 5 99) (by decide) (by decide)

/-! ### Registration (C8) -/

/-- C8: registration with a bearer credential and a valid card succeeds
with the fresh server-generated id (whatever `agent_id` the caller's card
carried is ignored), persists `token_hash = hash(credential)` and
`expires_at = now + 30 days` with `registered_at = now`, and preserves the
at-most-one-record-per-`agent_id` invariant of the store. -/
theorem c8_register (hashToken : String → String) (agents : List StoredAgent)
    (tok : String) (card : AgentCard) (freshId : String) (now : Nat)
    (hnd : (agents.map (fun x => x.card.agent_id)).Nodup) :
    registerRoute hashToken agents (some tok) (some card) freshId now =
        (.ok 201 ⟨freshId, now, now + thirtyDaysMs⟩,
          putAgent agents
            ⟨{ card with agent_id := freshId }, now, now + thirtyDaysMs, hashToken tok⟩)
      ∧ getAgent (registerRoute hashToken agents (some tok) (some card) freshId now).2
            freshId =
          some ⟨{ card with agent_id := freshId }, now, now + thirtyDaysMs, hashToken tok⟩
      ∧ (∀ other : String,
          registerRoute hashToken agents (some tok) (some { card with agent_id := other })
              freshId now =
            registerRoute hashToken agents (some tok) (some card) freshId now)
      ∧ ((registerRoute hashToken agents (some tok) (some card) freshId now).2.map
          (fun x => x.card.agent_id)).Nodup := by
  refine ⟨rfl, getAgent_putAgent_self agents _, fun other => rfl, ?_⟩
  exact agentIds_putAgent agents _ hnd

/-- Witness for C8 at a concrete registration. -/
theorem c8_register_witness :
    registerRoute (fun s => s) [] (some "tok-x") (some (mkCard "sk_caller")) "sk_fresh" 3 =
        (.ok 201 ⟨"sk_fresh", 3, 3 + thirtyDaysMs⟩,
          putAgent [] ⟨{ mkCard "sk_caller" with agent_id := "sk_fresh" }, 3,
            3 + thirtyDaysMs, "tok-x"⟩)
      ∧ getAgent
            (registerRoute (fun s => s) [] (some "tok-x") (some (mkCard "sk_caller"))
                "sk_fresh" 3).2 "sk_fresh" =
          some ⟨{ mkCard "sk_caller" with agent_id := "sk_fresh" }, 3, 3 + thirtyDaysMs,
            "tok-x"⟩
      ∧ (∀ other : String,
          registerRoute (fun s => s) [] (some "tok-x")
              (some { mkCard "sk_caller" with agent_id := other }) "sk_fresh" 3 =
            registerRoute (fun s => s) [] (some "tok-x") (some (mkCard "sk_caller"))
              "sk_fresh" 3)
      ∧ ((registerRoute (fun s => s) [] (some "tok-x") (some (mkCard "sk_caller"))
          "sk_fresh" 3).2.map (fun x => x.card.agent_id)).Nodup :=
  c8_register (fun s => s) [] "tok-x" (mkCard "sk_caller") "sk_fresh" 3 (by decide)

/-! ### Expiry is never consulted on the read path (C9) -/

/-- Rewriting every record's `expires_at` (e.g. moving it into the past). -/
def setExpiry (f : StoredAgent → Nat) (s : List StoredAgent) : List StoredAgent :=
  s.map (fun x => { x with expires_at := f x })

theorem getAgent_setExpiry (f : StoredAgent → Nat) (s : List StoredAgent) (id : String) :
    getAgent (setExpiry f s) id =
      (getAgent s id).map (fun x => { x with expires_at := f x }) := by
  unfold getAgent setExpiry
  rw [List.find?_map]
  rfl

theorem cards_setExpiry (f : StoredAgent → Nat) (s : List StoredAgent) :
    (setExpiry f s).map (fun x => x.card) = s.map (fun x => x.card) := by
  unfold setExpiry
  rw [List.map_map]
  rfl

/-- C9: neither `getAgent`/`AgentStore.get` nor either search consults
`expires_at`: arbitrarily rewriting every stored expiry (in particular,
moving it into the past) leaves `get` lookups (same record, same card) and
both searches unchanged; and any stored agent is served by
`GET /v1/agents/:id` regardless of its expiry, which the route never
reads. -/
theorem c9_expiry_never_read (f : StoredAgent → Nat) (s : List StoredAgent) (id : String)
    (query : DirectoryQuery) (enc dec : String → String) :
    getAgent (setExpiry f s) id =
        (getAgent s id).map (fun x => { x with expires_at := f x })
      ∧ (getAgent (setExpiry f s) id).map (fun x => x.card) =
        (getAgent s id).map (fun x => x.card)
      ∧ searchAgents (setExpiry f s) query enc dec = searchAgents s query enc dec
      ∧ agentStoreSearch (setExpiry f s) query enc dec = agentStoreSearch s query enc dec
      ∧ (∀ st : StoredAgent, getAgent s id = some st →
          getAgentRoute s id = .ok 200 st.card) := by
  refine ⟨getAgent_setExpiry f s id, ?_, ?_, ?_, ?_⟩
  · rw [getAgent_setExpiry f s id]
    cases getAgent s id <;> rfl
  · unfold searchAgents
    rw [cards_setExpiry]
  · unfold agentStoreSearch
    rw [cards_setExpiry]
  · intro st hst
    simp only [getAgentRoute, hst]

/-- Witness for C9 at a concrete store whose only record is forced to
expiry 0 (the distant past): reads are unchanged. -/
theorem c9_expiry_never_read_witness :
    getAgent (setExpiry (fun _ => 0) [mkStored "sk_a" "h" 3 50]) "sk_a" =
        (getAgent [mkStored "sk_a" "h" 3 50] "sk_a").map
          (fun x => { x with expires_at := 0 })
      ∧ (getAgent (setExpiry (fun _ => 0) [mkStored "sk_a" "h" 3 50]) "sk_a").map
          (fun x => x.card) =
        (getAgent [mkStored "sk_a" "h" 3 50] "sk_a").map (fun x => x.card)
      ∧ searchAgents (setExpiry (fun _ => 0) [mkStored "sk_a" "h" 3 50])
          { capability := none, intent := none, q := none, limit := 20, cursor := none }
          (fun x => x) (fun x => x) =
        searchAgents [mkStored "sk_a" "h" 3 50]
          { capability := none, intent := none, q := none, limit := 20, cursor := none }
          (fun x => x) (fun x => x)
      ∧ agentStoreSearch (setExpiry (fun _ => 0) [mkStored "sk_a" "h" 3 50])
          { capability := none, intent := none, q := none, limit := 20, cursor := none }
          (fun x => x) (fun x => x) =
        agentStoreSearch [mkStored "sk_a" "h" 3 50]
          { capability := none, intent := none, q := none, limit := 20, cursor := none }
          (fun x => x) (fun x => x)
      ∧ (∀ st : StoredAgent, getAgent [mkStored "sk_a" "h" 3 50] "sk_a" = some st →
          getAgentRoute [mkStored "sk_a" "h" 3 50] "sk_a" = .ok 200 st.card) :=
  c9_expiry_never_read (fun _ => 0) [mkStored "sk_a" "h" 3 50] "sk_a"
    { capability := none, intent := none, q := none, limit := 20, cursor := none }
    (fun x => x) (fun x => x)

/-! ### Search with a stale cursor restarts from the top (C10) -/

theorem cursorSlice_not_found (results : List AgentCard) (dec : String → String)
    (cur : String) (h : ∀ a ∈ results, a.agent_id ≠ dec cur) :
    cursorSlice results dec (some cur) = results := by
  have hb : ∀ a ∈ results, (fun a : AgentCard => a.agent_id == dec cur) a = false := by
    intro a ha
    exact beq_eq_false_iff_ne.mpr (h a ha)
  simp only [cursorSlice, findIdxOpt_eq_none _ _ hb]

/-- C10: when the decoded cursor id does not occur in the filtered result
list (deleted agent, or one that no longer matches the filter), both search
implementations behave exactly as if no cursor had been supplied — the scan
restarts from the top, repeating agents from earlier pages. -/
theorem c10_stale_cursor_restarts (s : List StoredAgent) (query : DirectoryQuery)
    (cur : String) (enc dec : String → String)
    (h1 : ∀ a ∈ applyFilters ((s.map (fun x => x.card)).insertionSort cardLE)
      query.capability query.intent query.q, a.agent_id ≠ dec cur)
    (h2 : ∀ a ∈ applyFilters (s.map (fun x => x.card))
      query.capability query.intent query.q, a.agent_id ≠ dec cur) :
    searchAgents s { query with cursor := some cur } enc dec =
        searchAgents s { query with cursor := none } enc dec
      ∧ agentStoreSearch s { query with cursor := some cur } enc dec =
        agentStoreSearch s { query with cursor := none } enc dec := by
  constructor
  · unfold searchAgents paginate
    dsimp only
    rw [cursorSlice_not_found _ _ _ h1]
    dsimp only [cursorSlice]
  · unfold agentStoreSearch paginate
    dsimp only
    rw [cursorSlice_not_found _ _ _ h2]
    dsimp only [cursorSlice]

/-- Witness for C10: a cursor naming an absent agent repeats page one. -/
theorem c10_stale_cursor_restarts_witness :
    searchAgents [mkStored "sk_a" "h" 0 9]
          { capability := none, intent := none, q := none, limit := 1,
            cursor := some "sk_gone" } (fun x => x) (fun x => x) =
        searchAgents [mkStored "sk_a" "h" 0 9]
          { capability := none, intent := none, q := none, limit := 1, cursor := none }
          (fun x => x) (fun x => x)
      ∧ agentStoreSearch [mkStored "sk_a" "h" 0 9]
          { capability := none, intent := none, q := none, limit := 1,
            cursor := some "sk_gone" } (fun x => x) (fun x => x) =
        agentStoreSearch [mkStored "sk_a" "h" 0 9]
          { capability := none, intent := none, q := none, limit := 1, cursor := none }
          (fun x => x) (fun x => x) :=
  c10_stale_cursor_restarts [mkStored "sk_a" "h" 0 9]
    { capability := none, intent := none, q := none, limit := 1, cursor := some "sk_gone" }
    "sk_gone" (fun x => x) (fun x => x) (by decide) (by decide)

/-! ### Relay enqueue (C2) -/

/-- C2 counterexample: the relay accepts a message to a recipient whose
registration has already expired (`expires_at = 0 < now = 1000`) — the
route checks only that `getAgent` finds the recipient, never its expiry —
and persists the entry, so "recipient must be non-expired" is false of the
code. -/
theorem c2_expired_recipient_accepted :
    (mkStored "sk_r" "h-r" 0 0).expires_at < 1000
      ∧ relayPost (fun s => s) [mkStored "sk_s" "tok-s" 0 50, mkStored "sk_r" "h-r" 0 0] []
          (some "tok-s") (some (mkMsg "sk_s" "sk_r")) "raw" "relay_1" 1000 =
        (.ok 201 ⟨"relay_1", "queued"⟩,
          [⟨"relay_1", "conv_1", "sk_s", "sk_r", "mesh.schedule", "raw", 1000, 0⟩]) := by
  exact ⟨by decide, by decide⟩

/-- C2 (amended: recipient must be *registered*; expiry is not consulted):
enqueue fails 401 when the token resolves to no agent, 400 on an invalid
body, 403 `UNAUTHORIZED` when the token's agent differs from
`message.from`, 404 `AGENT_UNAVAILABLE` when `message.to` is not a
registered agent — each failure leaving the message store unchanged — and
otherwise persists exactly one new entry under the server-generated
`relayId` with `delivered = 0`. -/
theorem c2_relay_enqueue (hashToken : String → String) (agents : List StoredAgent)
    (msgs : List StoredMessage) (bearer : Option String) (body : Option Message)
    (rawBody relayId : String) (now : Nat) :
    (resolveAgent hashToken agents bearer = none →
        relayPost hashToken agents msgs bearer body rawBody relayId now =
          (.err 401 "UNAUTHORIZED" "Must be a registered agent to send messages" false, msgs))
      ∧ (∀ auth, resolveAgent hashToken agents bearer = some auth → body = none →
          relayPost hashToken agents msgs bearer body rawBody relayId now =
            (.err 400 "INVALID_MESSAGE" "Invalid message" false, msgs))
      ∧ (∀ auth msg, resolveAgent hashToken agents bearer = some auth → body = some msg →
          msg.from_agent ≠ auth.1 →
          relayPost hashToken agents msgs bearer body rawBody relayId now =
            (.err 403 "UNAUTHORIZED" "Token does not match sender" false, msgs))
      ∧ (∀ auth msg, resolveAgent hashToken agents bearer = some auth → body = some msg →
          msg.from_agent = auth.1 → getAgent agents msg.to_agent = none →
          relayPost hashToken agents msgs bearer body rawBody relayId now =
            (.err 404 "AGENT_UNAVAILABLE" "Recipient agent not found" false, msgs))
      ∧ (∀ auth msg r, resolveAgent hashToken agents bearer = some auth → body = some msg →
          msg.from_agent = auth.1 → getAgent agents msg.to_agent = some r →
          relayPost hashToken agents msgs bearer body rawBody relayId now =
            (.ok 201 ⟨relayId, "queued"⟩,
              msgs ++ [⟨relayId, msg.conversation_id, msg.from_agent, msg.to_agent,
                msg.intent, rawBody, now, 0⟩])) := by
  refine ⟨?_, ?_, ?_, ?_, ?_⟩
  · intro h
    simp only [relayPost, h]
  · intro auth h hb
    simp only [relayPost, h, hb]
  · intro auth msg h hb hne
    have : (msg.from_agent != auth.1) = true := bne_iff_ne.mpr hne
    simp only [relayPost, h, hb, this, if_pos]
  · intro auth msg h hb heq hto
    have : (msg.from_agent != auth.1) = false := by simp [heq]
    simp only [relayPost, h, hb, this, Bool.false_eq_true, if_false, hto]
  · intro auth msg r h hb heq hto
    have : (msg.from_agent != auth.1) = false := by simp [heq]
    simp only [relayPost, h, hb, this, Bool.false_eq_true, if_false, hto, storeMessage]

/-- Witness for C2 (amended) at a concrete enqueue: a registered sender
whose token resolves, sending to a registered recipient, gets `201 queued`
and exactly one new undelivered entry. -/
theorem c2_relay_enqueue_witness :
    (resolveAgent (fun s => s) [mkStored "sk_s" "tok-s" 0 50, mkStored "sk_r" "h-r" 0 99]
          (some "tok-s") =
        none →
        relayPost (fun s => s) [mkStored "sk_s" "tok-s" 0 50, mkStored "sk_r" "h-r" 0 99] []
            (some "tok-s") (some (mkMsg "sk_s" "sk_r")) "raw" "relay_1" 7 =
          (.err 401 "UNAUTHORIZED" "Must be a registered agent to send messages" false, []))
      ∧ (∀ auth,
          resolveAgent (fun s => s)
              [mkStored "sk_s" "tok-s" 0 50, mkStored "sk_r" "h-r" 0 99] (some "tok-s") =
            some auth →
          some (mkMsg "sk_s" "sk_r") = none →
          relayPost (fun s => s) [mkStored "sk_s" "tok-s" 0 50, mkStored "sk_r" "h-r" 0 99]
              [] (some "tok-s") (some (mkMsg "sk_s" "sk_r")) "raw" "relay_1" 7 =
            (.err 400 "INVALID_MESSAGE" "Invalid message" false, []))
      ∧ (∀ auth msg,
          resolveAgent (fun s => s)
              [mkStored "sk_s" "tok-s" 0 50, mkStored "sk_r" "h-r" 0 99] (some "tok-s") =
            some auth →
          some (mkMsg "sk_s" "sk_r") = some msg → msg.from_agent ≠ auth.1 →
          relayPost (fun s => s) [mkStored "sk_s" "tok-s" 0 50, mkStored "sk_r" "h-r" 0 99]
              [] (some "tok-s") (some (mkMsg "sk_s" "sk_r")) "raw" "relay_1" 7 =
            (.err 403 "UNAUTHORIZED" "Token does not match sender" false, []))
      ∧ (∀ auth msg,
          resolveAgent (fun s => s)
              [mkStored "sk_s" "tok-s" 0 50, mkStored "sk_r" "h-r" 0 99] (some "tok-s") =
            some auth →
          some (mkMsg "sk_s" "sk_r") = some msg → msg.from_agent = auth.1 →
          getAgent [mkStored "sk_s" "tok-s" 0 50, mkStored "sk_r" "h-r" 0 99]
              msg.to_agent =
            none →
          relayPost (fun s => s) [mkStored "sk_s" "tok-s" 0 50, mkStored "sk_r" "h-r" 0 99]
              [] (some "tok-s") (some (mkMsg "sk_s" "sk_r")) "raw" "relay_1" 7 =
            (.err 404 "AGENT_UNAVAILABLE" "Recipient agent not found" false, []))
      ∧ (∀ auth msg r,
          resolveAgent (fun s => s)
              [mkStored "sk_s" "tok-s" 0 50, mkStored "sk_r" "h-r" 0 99] (some "tok-s") =
            some auth →
          some (mkMsg "sk_s" "sk_r") = some msg → msg.from_agent = auth.1 →
          getAgent [mkStored "sk_s" "tok-s" 0 50, mkStored "sk_r" "h-r" 0 99]
              msg.to_agent =
            some r →
          relayPost (fun s => s) [mkStored "sk_s" "tok-s" 0 50, mkStored "sk_r" "h-r" 0 99]
              [] (some "tok-s") (some (mkMsg "sk_s" "sk_r")) "raw" "relay_1" 7 =
            (.ok 201 ⟨"relay_1", "queued"⟩,
              [] ++ [⟨"relay_1", msg.conversation_id, msg.from_agent, msg.to_agent,
                msg.intent, "raw", 7, 0⟩])) :=
  c2_relay_enqueue (fun s => s) [mkStored "sk_s" "tok-s" 0 50, mkStored "sk_r" "h-r" 0 99]
    [] (some "tok-s") (some (mkMsg "sk_s" "sk_r")) "raw" "relay_1" 7

/-! ### Relay acknowledgment (C3) -/

/-- C3, evaluated at the failing input: the first acknowledgment succeeds
and flips `delivered` to 1; a second acknowledgment of the same entry by
the same recipient *also* reports 200 `acknowledged` — not the "not found"
the spec (and the route's own 404 message text "Message not found or
already acknowledged") promises — because the UPDATE's WHERE clause has no
`delivered = 0` conjunct and SQLite counts the re-matched row in
`changes`.  Nonexistent ids and wrong recipients do report 404, and an
acknowledged entry stops being returned by poll. -/
theorem c3_second_ack_reports_success :
    relayAckRoute (fun s => s) [mkStored "sk_b" "tok-b" 0 9]
          [⟨"relay_1", "conv_1", "sk_a", "sk_b", "mesh.schedule", "raw", 5, 0⟩]
          (some "tok-b") "relay_1" =
        (.ok 200 "acknowledged",
          [⟨"relay_1", "conv_1", "sk_a", "sk_b", "mesh.schedule", "raw", 5, 1⟩])
      ∧ relayAckRoute (fun s => s) [mkStored "sk_b" "tok-b" 0 9]
          [⟨"relay_1", "conv_1", "sk_a", "sk_b", "mesh.schedule", "raw", 5, 1⟩]
          (some "tok-b") "relay_1" =
        (.ok 200 "acknowledged",
          [⟨"relay_1", "conv_1", "sk_a", "sk_b", "mesh.schedule", "raw", 5, 1⟩])
      ∧ relayAckRoute (fun s => s) [mkStored "sk_b" "tok-b" 0 9]
          [⟨"relay_1", "conv_1", "sk_a", "sk_b", "mesh.schedule", "raw", 5, 1⟩]
          (some "tok-b") "relay_nonexistent" =
        (.err 404 "INVALID_MESSAGE" "Message not found or already acknowledged" false,
          [⟨"relay_1", "conv_1", "sk_a", "sk_b", "mesh.schedule", "raw", 5, 1⟩])
      ∧ getMessagesFor [⟨"relay_1", "conv_1", "sk_a", "sk_b", "mesh.schedule", "raw", 5, 1⟩]
          "sk_b" 50 = [] := by
  refine ⟨by decide, by decide, by decide, ?_⟩
  simp [getMessagesFor, List.insertionSort]

/-! ### Search result order (C4) -/

theorem applyFilters_sublist (cards : List AgentCard) (c i q : Option String) :
    List.Sublist (applyFilters cards c i q) cards := by
  unfold applyFilters
  cases c <;> cases i <;> cases q <;> dsimp only <;>
    first
      | exact List.Sublist.refl _
      | exact List.filter_sublist _
      | exact (List.filter_sublist _).trans (List.filter_sublist _)
      | exact ((List.filter_sublist _).trans (List.filter_sublist _)).trans
          (List.filter_sublist _)

/-- C4 counterexample: the in-memory `AgentStore.search` returns cards in
Map insertion order; inserting `sk_b` before `sk_a` makes the unfiltered
search return `[sk_b, sk_a]`, which is not ordered by `agent_id`
(`strLE "sk_b" "sk_a"` is false), refuting the claim for the in-memory
implementation. -/
theorem c4_agentStore_not_sorted :
    (agentStoreSearch [mkStored "sk_b" "h1" 0 9, mkStored "sk_a" "h2" 0 9]
          { capability := none, intent := none, q := none, limit := 20, cursor := none }
          (fun x => x) (fun x => x)).1 = [mkCard "sk_b", mkCard "sk_a"]
      ∧ ¬ List.Pairwise cardLE
          (agentStoreSearch [mkStored "sk_b" "h1" 0 9, mkStored "sk_a" "h2" 0 9]
            { capability := none, intent := none, q := none, limit := 20, cursor := none }
            (fun x => x) (fun x => x)).1 := by
  exact ⟨by decide, by decide⟩

/-- C4 (amended: only the SQLite-backed `searchAgents` orders by
`agent_id`): every page produced by `searchAgents` is sorted in the
lexicographic `agent_id` order (`ORDER BY agent_id` before filtering,
and filtering/slicing/taking preserve order), while the in-memory
`AgentStore.search` pages the cards in Map insertion order — an unfiltered,
cursorless in-memory search is exactly the insertion-order prefix. -/
theorem c4_searchAgents_sorted (s : List StoredAgent) (query : DirectoryQuery)
    (enc dec : String → String) :
    List.Pairwise cardLE (searchAgents s query enc dec).1
      ∧ (∀ (s₂ : List StoredAgent) (lim : Nat) (e₂ d₂ : String → String),
          (agentStoreSearch s₂
              { capability := none, intent := none, q := none, limit := lim, cursor := none }
              e₂ d₂).1 =
            (s₂.map (fun x => x.card)).take lim) := by
  constructor
  · unfold searchAgents
    have hsorted : ((s.map (fun x => x.card)).insertionSort cardLE).Pairwise cardLE :=
      List.sorted_insertionSort cardLE _
    exact hsorted.sublist
      ((paginate_fst_sublist _ _ _ _ _).trans
        (applyFilters_sublist _ query.capability query.intent query.q))
  · intro s₂ lim e₂ d₂
    rfl

/-- Witness for C4 (amended) at a concrete two-element store inserted out
of order: the SQLite search returns it sorted. -/
theorem c4_searchAgents_sorted_witness :
    List.Pairwise cardLE
        (searchAgents [mkStored "sk_b" "h1" 0 9, mkStored "sk_a" "h2" 0 9]
          { capability := none, intent := none, q := none, limit := 20, cursor := none }
          (fun x => x) (fun x => x)).1
      ∧ (∀ (s₂ : List StoredAgent) (lim : Nat) (e₂ d₂ : String → String),
          (agentStoreSearch s₂
              { capability := none, intent := none, q := none, limit := lim, cursor := none }
              e₂ d₂).1 =
            (s₂.map (fun x => x.card)).take lim) :=
  c4_searchAgents_sorted [mkStored "sk_b" "h1" 0 9, mkStored "sk_a" "h2" 0 9]
    { capability := none, intent := none, q := none, limit := 20, cursor := none }
    (fun x => x) (fun x => x)

/-! ### Pagination partitions the result list (C5) -/

theorem exists_append_of_getLast? {α : Type} {l : List α} {x : α}
    (h : l.getLast? = some x) : ∃ l', l = l' ++ [x] := by
  induction l with
  | nil => simp at h
  | cons a l ih =>
    cases l with
    | nil =>
      simp at h
      exact ⟨[], by simp [h]⟩
    | cons b m =>
      have h2 : (b :: m).getLast? = some x := by
        rw [← h]; symm; exact List.getLast?_cons_cons
      obtain ⟨l', hl'⟩ := ih h2
      exact ⟨a :: l', by simp [hl']⟩

theorem findIdxOpt_append_cons (A B : List AgentCard) (x : AgentCard)
    (hnd : ((A ++ x :: B).map (fun a => a.agent_id)).Nodup) :
    findIdxOpt (fun a : AgentCard => a.agent_id == x.agent_id) (A ++ x :: B) =
      some A.length := by
  induction A with
  | nil =>
    simp only [List.nil_append, findIdxOpt, List.length_nil]
    rw [if_pos (beq_self_eq_true _)]
  | cons a A ih =>
    have hne : a.agent_id ≠ x.agent_id := by
      simp only [List.cons_append, List.map_cons, List.nodup_cons] at hnd
      intro hcontra
      exact hnd.1 (by
        rw [hcontra]
        exact List.mem_map.mpr ⟨x, by simp, rfl⟩)
    have hnd2 : ((A ++ x :: B).map (fun a => a.agent_id)).Nodup := by
      simp only [List.cons_append, List.map_cons, List.nodup_cons] at hnd
      exact hnd.2
    simp only [List.cons_append, findIdxOpt, List.append_eq]
    rw [if_neg (by simp [hne])]
    have := ih hnd2
    simp only [List.append_eq] at this
    rw [this]
    rfl

theorem cursorSlice_resume (F pre rest : List AgentCard) (x : AgentCard)
    (enc dec : String → String) (hnd : (F.map (fun a => a.agent_id)).Nodup)
    (hrt : ∀ s, dec (enc s) = s) (hF : F = pre ++ rest) (hlast : pre.getLast? = some x) :
    cursorSlice F dec (some (enc x.agent_id)) = rest := by
  obtain ⟨A, hA⟩ := exists_append_of_getLast? hlast
  have hF2 : F = A ++ x :: rest := by
    rw [hF, hA, List.append_assoc, List.singleton_append]
  have hidx : findIdxOpt (fun a : AgentCard => a.agent_id == x.agent_id) F = some A.length := by
    rw [hF2]
    exact findIdxOpt_append_cons A rest x (hF2 ▸ hnd)
  have hdec : dec (enc x.agent_id) = x.agent_id := hrt _
  simp only [cursorSlice, hdec, hidx]
  rw [hF2]
  have : A ++ x :: rest = (A ++ [x]) ++ rest := by
    rw [List.append_assoc, List.singleton_append]
  rw [this]
  have hlen : (A ++ [x]).length = A.length + 1 := by simp
  rw [← hlen]
  exact List.drop_left _ _

theorem collectPages_succ (results : List AgentCard) (limit : Nat)
    (enc dec : String → String) (n : Nat) (cursor : Option String) :
    collectPages results limit enc dec (n + 1) cursor =
      match (paginate results limit cursor enc dec).2 with
      | none => (paginate results limit cursor enc dec).1
      | some c =>
          (paginate results limit cursor enc dec).1 ++
            collectPages results limit enc dec n (some c) := rfl

theorem collectPages_general (F : List AgentCard) (limit : Nat) (enc dec : String → String)
    (hnd : (F.map (fun a => a.agent_id)).Nodup) (hlim : 1 ≤ limit)
    (hrt : ∀ s, dec (enc s) = s) :
    ∀ (fuel : Nat) (pre rest : List AgentCard) (cursor : Option String),
      F = pre ++ rest → rest.length + 1 ≤ fuel →
      ((cursor = none ∧ pre = []) ∨
        (∃ x, pre.getLast? = some x ∧ cursor = some (enc x.agent_id))) →
      collectPages F limit enc dec fuel cursor = rest := by
  intro fuel
  induction fuel with
  | zero => intro pre rest cursor _ hfuel _; omega
  | succ n ih =>
    intro pre rest cursor hF hfuel hcur
    have hslice : cursorSlice F dec cursor = rest := by
      rcases hcur with ⟨hc, hp⟩ | ⟨x, hlast, hc⟩
      · subst hc
        simp only [cursorSlice]
        rw [hF, hp, List.nil_append]
      · subst hc
        exact cursorSlice_resume F pre rest x enc dec hnd hrt hF hlast
    have hpag : paginate F limit cursor enc dec =
        (rest.take limit,
          if (rest.take limit).length == limit then
            (rest.take limit).getLast?.map (fun a => enc a.agent_id)
          else none) := by
      unfold paginate
      rw [hslice]
    rw [collectPages_succ, hpag]
    by_cases hlen : rest.length < limit
    · have htake : rest.take limit = rest := List.take_of_length_le (by omega)
      rw [htake]
      have hcond : ¬ ((rest.length == limit) = true) := by
        rw [beq_eq_false_iff_ne.mpr (by omega : rest.length ≠ limit)]
        simp
      rw [if_neg hcond]
    · have hlen2 : limit ≤ rest.length := by omega
      have htakelen : (rest.take limit).length = limit := by
        rw [List.length_take]
        omega
      have hcond : ((rest.take limit).length == limit) = true := by
        rw [htakelen]
        exact beq_self_eq_true _
      have hne : rest.take limit ≠ [] := by
        intro hcontra
        rw [hcontra] at htakelen
        simp at htakelen
        omega
      obtain ⟨y, hy⟩ : ∃ y, (rest.take limit).getLast? = some y := by
        cases hl : (rest.take limit).getLast? with
        | none => exact absurd (List.getLast?_eq_none_iff.mp hl) hne
        | some y => exact ⟨y, rfl⟩
      have hrec : collectPages F limit enc dec n (some (enc y.agent_id)) =
          rest.drop limit := by
        apply ih (pre ++ rest.take limit) (rest.drop limit) _ _ _ (Or.inr ⟨y, ?_, rfl⟩)
        · rw [List.append_assoc, List.take_append_drop]
          exact hF
        · have := List.length_drop limit rest
          omega
        · rw [List.getLast?_append_of_ne_nil _ hne]
          exact hy
      rw [if_pos hcond, hy]
      dsimp only [Option.map]
      rw [hrec, List.take_append_drop]

/-- C5: for any filtered result list with duplicate-free agent ids and any
`limit ≥ 1`, repeatedly requesting pages while threading the returned
cursor (threading cursors decode to what they encoded, as base64 does)
partitions the unpaginated result exactly — concatenating the pages
reproduces the full list, with no repeats and no omissions; a returned page
shorter than `limit` never carries a next cursor; a returned cursor is
always the encoding of the last `agent_id` of its page; and both store
implementations' searches are exactly `paginate` applied to their filtered
(for the SQLite store: sorted) card lists. -/
theorem c5_pagination_partitions (F : List AgentCard) (limit fuel : Nat)
    (enc dec : String → String) (hnd : (F.map (fun a => a.agent_id)).Nodup)
    (hlim : 1 ≤ limit) (hrt : ∀ s, dec (enc s) = s) (hfuel : F.length + 1 ≤ fuel) :
    collectPages F limit enc dec fuel none = F
      ∧ (∀ cursor : Option String,
          ((paginate F limit cursor enc dec).1).length < limit →
          (paginate F limit cursor enc dec).2 = none)
      ∧ (∀ (cursor : Option String) (c : String),
          (paginate F limit cursor enc dec).2 = some c →
          ∃ x, (paginate F limit cursor enc dec).1.getLast? = some x ∧ c = enc x.agent_id)
      ∧ (∀ (s : List StoredAgent) (q : DirectoryQuery),
          searchAgents s q enc dec =
            paginate
              (applyFilters ((s.map (fun x => x.card)).insertionSort cardLE)
                q.capability q.intent q.q) q.limit q.cursor enc dec)
      ∧ (∀ (s : List StoredAgent) (q : DirectoryQuery),
          agentStoreSearch s q enc dec =
            paginate (applyFilters (s.map (fun x => x.card)) q.capability q.intent q.q)
              q.limit q.cursor enc dec) := by
  refine ⟨?_, ?_, ?_, fun s q => rfl, fun s q => rfl⟩
  · exact collectPages_general F limit enc dec hnd hlim hrt fuel [] F none rfl hfuel
      (Or.inl ⟨rfl, rfl⟩)
  · intro cursor hshort
    unfold paginate at hshort ⊢
    dsimp only at hshort ⊢
    have hne : (((cursorSlice F dec cursor).take limit).length == limit) = false :=
      beq_eq_false_iff_ne.mpr (by omega)
    rw [if_neg (by rw [hne]; simp)]
  · intro cursor c hsnd
    unfold paginate at hsnd ⊢
    dsimp only at hsnd ⊢
    by_cases hcond : (((cursorSlice F dec cursor).take limit).length == limit) = true
    · rw [if_pos hcond] at hsnd
      cases hl : ((cursorSlice F dec cursor).take limit).getLast? with
      | none => rw [hl] at hsnd; simp at hsnd
      | some x =>
        rw [hl] at hsnd
        dsimp only [Option.map] at hsnd
        injection hsnd with h
        exact ⟨x, rfl, h.symm⟩
    · rw [if_neg hcond] at hsnd
      exact Option.noConfusion hsnd

/-- Witness for C5: two agents, `limit = 1`, two threaded pages reproduce
the full result. -/
theorem c5_pagination_partitions_witness :
    collectPages [mkCard "sk_a", mkCard "sk_b"] 1 (fun x => x) (fun x => x) 3 none =
        [mkCard "sk_a", mkCard "sk_b"]
      ∧ (∀ cursor : Option String,
          ((paginate [mkCard "sk_a", mkCard "sk_b"] 1 cursor (fun x => x) (fun x => x)).1).length
              < 1 →
          (paginate [mkCard "sk_a", mkCard "sk_b"] 1 cursor (fun x => x) (fun x => x)).2 = none)
      ∧ (∀ (cursor : Option String) (c : String),
          (paginate [mkCard "sk_a", mkCard "sk_b"] 1 cursor (fun x => x) (fun x => x)).2 =
            some c →
          ∃ x, (paginate [mkCard "sk_a", mkCard "sk_b"] 1 cursor (fun x => x)
              (fun x => x)).1.getLast? = some x ∧ c = x.agent_id)
      ∧ (∀ (s : List StoredAgent) (q : DirectoryQuery),
          searchAgents s q (fun x => x) (fun x => x) =
            paginate
              (applyFilters ((s.map (fun x => x.card)).insertionSort cardLE)
                q.capability q.intent q.q) q.limit q.cursor (fun x => x) (fun x => x))
      ∧ (∀ (s : List StoredAgent) (q : DirectoryQuery),
          agentStoreSearch s q (fun x => x) (fun x => x) =
            paginate (applyFilters (s.map (fun x => x.card)) q.capability q.intent q.q)
              q.limit q.cursor (fun x => x) (fun x => x)) :=
  c5_pagination_partitions [mkCard "sk_a", mkCard "sk_b"] 1 3 (fun x => x) (fun x => x)
    (by decide) (by decide) (fun s => rfl) (by decide)

/-! ### Canonicalization (C1) -/

/-- C1: canonicalization is insensitive to object-key insertion order at
every nesting level (for well-formed, duplicate-key-free objects); it
removes a top-level `signature` field before serializing; it sorts object
keys lexicographically, recursively; it preserves array element order
verbatim; and it emits no insignificant whitespace — witnessed by the exact
byte outputs of the four unit tests of `schema.test.ts` lines 168–188. -/
theorem c1_canonicalize_order_independent (a b : Json) (hw : WfKeys a)
    (h : SameFields a b) :
    canonicalize a = canonicalize b
      ∧ canonicalize (.obj [("z", .num 1), ("a", .num 2), ("m", .num 3)]) =
        "\x7b\"a\":2,\"m\":3,\"z\":1\x7d"
      ∧ canonicalize
          (.obj [("a", .num 1), ("signature", .str "should-be-removed"), ("b", .num 2)]) =
        "\x7b\"a\":1,\"b\":2\x7d"
      ∧ canonicalize (.obj [("b", .obj [("z", .num 1), ("a", .num 2)]), ("a", .num 1)]) =
        "\x7b\"a\":1,\"b\":\x7b\"a\":2,\"z\":1\x7d\x7d"
      ∧ canonicalize (.obj [("arr", .arr [.num 3, .num 1, .num 2])]) =
        "\x7b\"arr\":[3,1,2]\x7d" := by
  refine ⟨canonicalize_eq_of_sameFields hw h, ?_, ?_, ?_, ?_⟩ <;>
    · simp only [canonicalize, stripSignatureTop, sortJson_obj, sortJson_arr, sortJson_num,
        sortJson_str, List.filter, List.map, sortPairs, List.insertionSort,
        List.orderedInsert, render_obj, render_arr, render_num, render_str]
      decide

/-- Witness for C1: two concrete objects with the same fields in different
insertion order canonicalize identically. -/
theorem c1_canonicalize_order_independent_witness :
    canonicalize (.obj [("z", .num 1), ("a", .num 2)]) =
        canonicalize (.obj [("a", .num 2), ("z", .num 1)])
      ∧ canonicalize (.obj [("z", .num 1), ("a", .num 2), ("m", .num 3)]) =
        "\x7b\"a\":2,\"m\":3,\"z\":1\x7d"
      ∧ canonicalize
          (.obj [("a", .num 1), ("signature", .str "should-be-removed"), ("b", .num 2)]) =
        "\x7b\"a\":1,\"b\":2\x7d"
      ∧ canonicalize (.obj [("b", .obj [("z", .num 1), ("a", .num 2)]), ("a", .num 1)]) =
        "\x7b\"a\":1,\"b\":\x7b\"a\":2,\"z\":1\x7d\x7d"
      ∧ canonicalize (.obj [("arr", .arr [.num 3, .num 1, .num 2])]) =
        "\x7b\"arr\":[3,1,2]\x7d" := by
  have hw : WfKeys (.obj [("z", Json.num 1), ("a", Json.num 2)]) := by
    refine WfKeys.obj (by decide) ?_
    intro p hp
    simp only [List.mem_cons, List.not_mem_nil, or_false] at hp
    rcases hp with rfl | rfl
    · exact WfKeys.num 1
    · exact WfKeys.num 2
  have hsf : SameFields (.obj [("z", Json.num 1), ("a", Json.num 2)])
      (.obj [("a", Json.num 2), ("z", Json.num 1)]) := by
    refine SameFields.obj (l := [("a", Json.num 2), ("z", Json.num 1)])
      (List.Perm.swap ("a", Json.num 2) ("z", Json.num 1) []) rfl ?_
    exact List.Forall₂.cons (SameFields.num 2)
      (List.Forall₂.cons (SameFields.num 1) List.Forall₂.nil)
  exact c1_canonicalize_order_independent _ _ hw hsf

end AgentMesh
